import Mathlib

/-!
Verification development for the `wradex` RADEX driver
(`wradex/radex.py`).  The Python source is shallowly embedded: pure
fragments become Lean functions on lists and rationals, the line-oriented
file reads become functions on `List String`, and the single stateful
fragment (in-place dict mutation) becomes explicit store passing.
Machine floats are modelled by exact decimal numerals (`PyFloat`) resp.
rationals; a float that fails to parse is `Option.none` (Python's
`except: ... = np.nan` branch).
-/

namespace Wradex

/-! ## Character and string utilities

Python's `re.compile(pat, re.IGNORECASE).search(line)` for the literal
patterns used in `radex.py` ("energy levels", "radiative transitions",
"calculation finished") is a case-insensitive substring test, and
`str.split()` with no argument splits on whitespace runs discarding
empty fields.  Both are modelled on `List Char`. -/

/-- Lower-cased character list of a string (models `re.IGNORECASE`). -/
def lowerChars (s : String) : List Char := s.toList.map Char.toLower

/-- Boolean test that `pat` is an initial segment of `hay`. -/
def startsWithL : List Char → List Char → Bool
  | _, [] => true
  | [], _ :: _ => false
  | a :: hay, b :: pat => a == b && startsWithL hay pat

/-- Boolean substring test on character lists. -/
def containsSubL (hay pat : List Char) : Bool :=
  match hay with
  | [] => pat.isEmpty
  | _ :: t => startsWithL hay pat || containsSubL t pat

/-- Case-insensitive substring test: the semantics of
`re.compile(pat, re.IGNORECASE).search(line)` for a literal `pat`. -/
def containsCI (hay pat : String) : Bool :=
  containsSubL (lowerChars hay) (lowerChars pat)

/-- Python `line.split()`: split on whitespace runs, dropping empty
fields. -/
def splitPy (s : String) : List String :=
  ((s.toList.splitOnP (·.isWhitespace)).filter (· ≠ [])).map String.mk

/-! ## Python numeric literals

Python `float(field)` on the finite numeric literals appearing in RADEX
output and LAMDA data files: optional surrounding whitespace, optional
sign, digits with an optional fractional part, and an optional decimal
exponent.  The exact value is kept as an unnormalised decimal numeral
`PyFloat` (mantissa digits, fraction length, exponent); `PyFloat.toRat`
gives its rational value.  The special spellings `inf`/`nan` and digit
underscores are outside the model; `none` models the `ValueError`
branch. -/

/-- Exact decimal numeral with value
`(-1)^neg * mant / 10^fshift * 10^es`. -/
structure PyFloat where
  neg : Bool
  mant : Nat
  fshift : Nat
  es : Int
  deriving DecidableEq

/-- Rational value of a parsed decimal numeral. -/
def PyFloat.toRat (p : PyFloat) : ℚ :=
  (if p.neg then (-1 : ℚ) else 1) * (p.mant : ℚ) / (10 : ℚ) ^ p.fshift * (10 : ℚ) ^ p.es

/-- Strict positivity of a parsed decimal numeral, decidably. -/
def PyFloat.isPos (p : PyFloat) : Bool := !p.neg && p.mant ≠ 0

/-- Longest prefix of decimal digits, returned as digit values together
with the remaining characters. -/
def takeDigits : List Char → List Nat × List Char
  | [] => ([], [])
  | c :: cs =>
    if c.isDigit then
      let r := takeDigits cs
      ((c.toNat - 48) :: r.1, r.2)
    else ([], c :: cs)

/-- Numeric value of a digit list (most significant first). -/
def digitsVal (ds : List Nat) : Nat := ds.foldl (fun a d => 10 * a + d) 0

/-- Optional leading sign; returns whether it was `-` and the rest. -/
def takeSign : List Char → Bool × List Char
  | '-' :: cs => (true, cs)
  | '+' :: cs => (false, cs)
  | cs => (false, cs)

/-- Optional exponent part `e`/`E` sign digits, applied to a mantissa
numeral; fails when the exponent marker is present but malformed. -/
def parseExpPart (neg : Bool) (mant fshift : Nat) :
    List Char → Option (PyFloat × List Char)
  | c :: cs =>
    if c == 'e' || c == 'E' then
      let s := takeSign cs
      let d := takeDigits s.2
      if d.1.isEmpty then none
      else
        some (⟨neg, mant, fshift,
          if s.1 then -(digitsVal d.1 : Int) else (digitsVal d.1 : Int)⟩, d.2)
    else some (⟨neg, mant, fshift, 0⟩, c :: cs)
  | [] => some (⟨neg, mant, fshift, 0⟩, [])

/-- Core numeral parser: sign, integer digits, optional `.` and fraction
digits, optional exponent.  At least one digit must be present before
the exponent. -/
def pyFloatCore (cs : List Char) : Option (PyFloat × List Char) :=
  let s := takeSign cs
  let ip := takeDigits s.2
  match ip.2 with
  | '.' :: cs2 =>
    let fp := takeDigits cs2
    if ip.1.isEmpty && fp.1.isEmpty then none
    else parseExpPart s.1 (digitsVal (ip.1 ++ fp.1)) fp.1.length fp.2
  | rest =>
    if ip.1.isEmpty then none else parseExpPart s.1 (digitsVal ip.1) 0 rest

/-- Python `float(s)` on finite numerals: surrounding whitespace is
allowed, anything else trailing is a `ValueError` (`none`). -/
def pyFloat? (s : String) : Option PyFloat :=
  match pyFloatCore (s.toList.dropWhile (·.isWhitespace)) with
  | some (v, rest) => if rest.dropWhile (·.isWhitespace) = [] then some v else none
  | none => none

/-- Python `int(s)`: optional surrounding whitespace, optional sign,
decimal digits only. -/
def pyInt? (s : String) : Option Int :=
  let s' := takeSign (s.toList.dropWhile (·.isWhitespace))
  let d := takeDigits s'.2
  if d.1.isEmpty then none
  else if d.2.dropWhile (·.isWhitespace) = [] then
    some (if s'.1 then -(digitsVal d.1 : Int) else (digitsVal d.1 : Int))
  else none

/-! ## Line-oriented streams and the header-scanning loop

The moldata and output parsers in `radex.py` read a text stream with
`f.readline()`, which returns the next line, and returns `""` forever
once the end of the stream is reached.  The header search is

  kwd = ''
  while not pat.search(kwd):
      kwd = f.readline()

`scanHeader` is that loop stepped a given number of iterations; the
loop has no exit besides a successful match, so `none` means the loop
is still running after the given number of iterations. -/

/-- One `f.readline()` on a stream of remaining lines: the next line,
or `""` at end of stream, together with the new stream state. -/
def readlineD : List String → String × List String
  | [] => ("", [])
  | l :: ls => (l, ls)

/-- The header-scanning `while` loop, stepped `fuel` iterations:
`some rest` when the loop has exited with `rest` the unread lines,
`none` when it is still running after `fuel` iterations. -/
def scanHeader (pat : String) : Nat → String → List String → Option (List String)
  | 0, _, _ => none
  | fuel + 1, kwd, rest =>
    if containsCI kwd pat then some rest
    else scanHeader pat fuel (readlineD rest).1 (readlineD rest).2

/-- Value of the header-scanning loop on its terminating executions:
drop lines until one matches the pattern case-insensitively, returning
the lines after the match; `none` when no line ever matches (the case
in which the loop in the source diverges). -/
def findSectionCI (pat : String) : List String → Option (List String)
  | [] => none
  | l :: ls => if containsCI l pat then some ls else findSectionCI pat ls

/-! ## The energy-level section parser (`RADEX._get_energy_levels`) -/

/-- One parsed energy level: fields 2, 3 and 4 of a level line. -/
structure EnergyLevel where
  energy : PyFloat
  weight : PyFloat
  level : String
  deriving DecidableEq

instance : Inhabited PyFloat := ⟨⟨false, 0, 0, 0⟩⟩

instance : Inhabited EnergyLevel := ⟨⟨default, default, ""⟩⟩

/-- Parse one level line:
`energy = float(elems[1]); weight = float(elems[2]); level = elems[3]`.
`none` models the `IndexError`/`ValueError` raised on a short or
non-numeric line. -/
def parseLevelLine (s : String) : Option EnergyLevel := do
  let elems := splitPy s
  let e ← (elems.get? 1).bind pyFloat?
  let w ← (elems.get? 2).bind pyFloat?
  let lvl ← elems.get? 3
  pure ⟨e, w, lvl⟩

/-- Parse `n` successive level lines (the `for i in range(n_levels)`
loop); reading past end of stream yields `""`, whose field extraction
fails. -/
def parseLevels : Nat → List String → Option (List EnergyLevel)
  | 0, _ => some []
  | n + 1, lines => do
    let lv ← parseLevelLine (readlineD lines).1
    let rest ← parseLevels n (readlineD lines).2
    pure (lv :: rest)

/-- Terminating embedding of `_get_energy_levels` on a file given as a
line list: find the "energy levels" header (the loop itself is
`scanHeader`; `findSectionCI` is its value on terminating executions),
read the level count, discard the column-header line, parse the `n`
level lines, and key them `1..n` in file order. -/
def getEnergyLevels (lines : List String) : Option (List (Nat × EnergyLevel)) := do
  let rest ← findSectionCI "energy levels" lines
  let n ← pyInt? (readlineD rest).1
  let body := (readlineD (readlineD rest).2).2
  let lvs ← parseLevels n.toNat body
  pure (((List.range n.toNat).zip lvs).map (fun p => (p.1 + 1, p.2)))

/-! ## Parameter values and the parameter grid -/

/-- A parameter value: a scalar quantity or an array of quantities.
Only the numeric magnitudes are carried; the attached astropy unit is
handled by the configured conversion function
(`RADEXConfig.inUnitConv`). -/
inductive SpecParam
  | scalar (x : ℚ)
  | array (xs : List ℚ)
  deriving DecidableEq

/-- Length of the grid axis a parameter contributes under
`np.meshgrid(..., indexing='ij')`, which treats a scalar as a
one-element array. -/
def paramLen : SpecParam → Nat
  | .scalar _ => 1
  | .array xs => xs.length

/-- Values along a parameter's axis. -/
def paramVals : SpecParam → List ℚ
  | .scalar x => [x]
  | .array xs => xs

/-- Whether a parameter is array-valued. -/
def isArrayParam : SpecParam → Bool
  | .scalar _ => false
  | .array _ => true

/-- Shape produced by `np.squeeze`: every length-1 axis removed. -/
def squeezeShape (shape : List Nat) : List Nat := shape.filter (· ≠ 1)

/-- Number of cells of a grid shape. -/
def cellCount (shape : List Nat) : Nat := shape.prod

/-- `itertools.product(*map(range, shape))`: all index tuples of the
grid, in row-major (lexicographic) order. -/
def indexProduct : List Nat → List (List Nat)
  | [] => [[]]
  | n :: ns => (List.range n).flatMap (fun i => (indexProduct ns).map (fun t => i :: t))

/-- Boolean validity of an index tuple for a grid shape. -/
def validIdx : List Nat → List Nat → Bool
  | [], [] => true
  | i :: idx, n :: shape => i < n && validIdx idx shape
  | _, _ => false

/-- The grid shape as the specification words it: one axis per
array-valued parameter, in iteration order, scalars contributing no
axis.  (Stated from the specification, for comparison with the shape
the code produces.) -/
def broadcastShapeSpec (ps : List SpecParam) : List Nat :=
  (ps.filter isArrayParam).map paramLen

/-- Shape of the arrays `np.meshgrid(*vals, indexing='ij')` returns:
one axis per parameter, scalars included as length-1 axes. -/
def gridShapeOf (ps : List SpecParam) : List Nat := ps.map paramLen

/-! ## Python dictionaries and solver-facing values -/

/-- A Python value as it occurs in the parameter dictionaries of
`__call__`: a string (`moldata`, `output`), a unit-tagged quantity, a
bare number after `.value` stripping, or a bare array. -/
inductive PyVal
  | str (s : String)
  | qty (q : SpecParam)
  | num (x : ℚ)
  | numArr (xs : List ℚ)
  deriving DecidableEq

/-- Insertion-ordered Python dictionary with string keys. -/
abbrev PyDict := List (String × PyVal)

/-- `d[k] = v` on an insertion-ordered dictionary: replace in place
when the key is present, append otherwise. -/
def dictSet {α : Type _} (d : List (String × α)) (k : String) (v : α) :
    List (String × α) :=
  if d.any (fun kv => kv.1 == k) then
    d.map (fun kv => if kv.1 == k then (k, v) else kv)
  else d ++ [(k, v)]

/-- `d.update(kvs)` on an insertion-ordered dictionary. -/
def dictUpdate {α : Type _} (d : List (String × α)) (kvs : List (String × α)) :
    List (String × α) :=
  kvs.foldl (fun d kv => dictSet d kv.1 kv.2) d

/-- `d.pop(k)` for each listed key, keeping only the dictionary. -/
def removeKeys {α : Type _} (d : List (String × α)) (ks : List String) :
    List (String × α) :=
  ks.foldl (fun d k => d.filter (fun kv => kv.1 ≠ k)) d

/-- `_remove_units` on one value: `val.value` strips the unit tag from
a quantity; a value without a `value` attribute raises
`AttributeError` and is kept unchanged. -/
def removeUnitsVal : PyVal → PyVal
  | .qty (.scalar x) => .num x
  | .qty (.array xs) => .numArr xs
  | v => v

/-! ## Reading the solver output file (`RADEX._calc_radex`) -/

/-- Fields extracted from the solver output once the
"calculation finished" line is found: two lines are discarded, the
next is split into fields, and output quantity `i` is
`float(elems[i+3])`; any conversion failure (the bare `except:`)
records not-a-number, modelled as `none`. -/
def radexRecordOf (outKeys : List String) (rest : List String) :
    List (String × Option PyFloat) :=
  let elems := splitPy (rest.getD 2 "")
  outKeys.enum.map (fun p => (p.2, pyFloat? (elems.getD (p.1 + 3) "")))

/-- Reading of the solver output file in `_calc_radex`: scan for the
"calculation finished" line — the same divergent-when-absent loop as
`scanHeader`, with `none` marking the diverging case — then extract
the fixed-position fields. -/
def radexReadOutput (outKeys : List String) (fileLines : List String) :
    Option (List (String × Option PyFloat)) :=
  (findSectionCI "calculation finished" fileLines).map (radexRecordOf outKeys)

/-! ## The sweep entry point (`RADEX.__call__`) -/

/-- Static configuration from `config.yaml`: the ordered default
parameter table `RADEX_PARAMS` (units applied), the per-parameter
input unit conversion of `RADEX_IN_UNI` (the action of `.to(unit)` on
a magnitude), the output quantity names of `RADEX_OUT_UNI` in order,
and the solver output path `RADEX_OUTPUT`. -/
structure RADEXConfig where
  radexParams : List (String × SpecParam)
  inUnitConv : String → ℚ → ℚ
  outKeys : List String
  outputPath : String

/-- Per-molecule state of a `RADEX` calculator: the moldata file name
and the parsed transition table, keeping per transition the rest
frequency `f_rest` in GHz — the only transition field `__call__`
reads. -/
structure RADEXData where
  moldata : String
  transitions : List (String × ℚ)

/-- Parameter dictionary after the override steps of `__call__`:
`params = deepcopy(self.default_params); params.update(kwargs);`
then the update with `moldata`, `output`, `f_min`, `f_max`. -/
def sweepParams (cfg : RADEXConfig) (st : RADEXData) (fr : ℚ) (kwargs : PyDict) :
    PyDict :=
  dictUpdate
    (dictUpdate (cfg.radexParams.map (fun kv => (kv.1, PyVal.qty kv.2))) kwargs)
    [("moldata", .str st.moldata), ("output", .str cfg.outputPath),
     ("f_min", .qty (.scalar (fr - 1 / 1000))),
     ("f_max", .qty (.scalar (fr + 1 / 1000)))]

/-- Value popped for a grid parameter, `params.pop(key)`.  On every
reachable dictionary the key is present and quantity-valued, because
the defaults provide all grid keys; the fallback is arbitrary. -/
def popQty (d : PyDict) (k : String) : SpecParam :=
  match List.lookup k d with
  | some (.qty q) => q
  | _ => .scalar 0

/-- The grid parameters in `RADEX_PARAMS` iteration order with their
swept values: the arguments handed to `np.meshgrid`. -/
def sweepVals (cfg : RADEXConfig) (st : RADEXData) (fr : ℚ) (kwargs : PyDict) :
    List (String × SpecParam) :=
  cfg.radexParams.map (fun kv => (kv.1, popQty (sweepParams cfg st fr kwargs) kv.1))

/-- The parameter dictionary after the grid parameters are popped. -/
def sweepRest (cfg : RADEXConfig) (st : RADEXData) (fr : ℚ) (kwargs : PyDict) :
    PyDict :=
  removeKeys (sweepParams cfg st fr kwargs) (cfg.radexParams.map Prod.fst)

/-- Grid shape of one sweep, `grids[0].shape`. -/
def sweepShape (cfg : RADEXConfig) (st : RADEXData) (fr : ℚ) (kwargs : PyDict) :
    List Nat :=
  gridShapeOf ((sweepVals cfg st fr kwargs).map Prod.snd)

/-- Entry of grid `j` at index tuple `idx`, converted to the declared
input unit: `grids[j].to(u.Unit(unit))[idx]` under `indexing='ij'`,
where grid `j` varies only along axis `j`. -/
def gridEntry (cfg : RADEXConfig) (vals : List (String × SpecParam)) (j : Nat)
    (idx : List Nat) : ℚ :=
  cfg.inUnitConv (vals.getD j ("", .scalar 0)).1
    ((paramVals (vals.getD j ("", .scalar 0)).2).getD (idx.getD j 0) 0)

/-- One cell's gridded parameters,
`eachgparams = {key: val[idx] for key, val in gparams.items()}`. -/
def eachGParams (cfg : RADEXConfig) (vals : List (String × SpecParam))
    (idx : List Nat) : PyDict :=
  (List.range vals.length).map
    (fun j => ((vals.getD j ("", .scalar 0)).1,
      PyVal.qty (.scalar (gridEntry cfg vals j idx))))

/-- The record `_calc_radex` receives for one cell,
`{**params, **eachgparams}`, after its in-place `_remove_units`. -/
def cellDict (cfg : RADEXConfig) (vals : List (String × SpecParam))
    (rest : PyDict) (idx : List Nat) : PyDict :=
  (dictUpdate rest (eachGParams cfg vals idx)).map
    (fun kv => (kv.1, removeUnitsVal kv.2))

/-- Flattened (row-major) values of grid `j` over the whole grid: the
element multiset `np.unique` and `np.squeeze` act on. -/
def gridFlat (cfg : RADEXConfig) (vals : List (String × SpecParam))
    (shape : List Nat) (j : Nat) : List ℚ :=
  (indexProduct shape).map (gridEntry cfg vals j)

/-- A value of the resolved parameter record: an untouched dictionary
entry, a collapsed scalar, or a squeezed array with its flattened
values. -/
inductive ResolvedVal
  | raw (v : PyVal)
  | scalar (x : ℚ)
  | arr (shape : List Nat) (flat : List ℚ)
  deriving DecidableEq

/-- Redundancy removal of `__call__` (lines 153-159): when
`len(np.unique(vals)) == 1` the parameter collapses to that single
value, otherwise it is squeezed. -/
def resolveParam (shape : List Nat) (flat : List ℚ) : ResolvedVal :=
  if flat.dedup.length = 1 then .scalar (flat.dedup.headD 0)
  else .arr (squeezeShape shape) flat

/-- Observable actions of one `__call__`: a solver execution for a
grid cell, the read of the solver output file for that cell, and the
`os.remove` of the output resp. log file. -/
inductive Event
  | solverRun (idx : List Nat)
  | readOutput (idx : List Nat)
  | removeOutput
  | removeLog
  deriving DecidableEq

/-- Failure of `__call__` before the sweep starts: the `KeyError` of
`self._transitions[transition]` (the specification's
UnknownTransitionError). -/
inductive CallErr
  | unknownTransition
  deriving DecidableEq

/-- Return record of `__call__`: the resolved parameters and, per
output quantity, the squeezed shape together with the flattened
per-cell values (`none` = not-a-number). -/
structure CallResult where
  params : List (String × ResolvedVal)
  outputs : List (String × (List Nat × List (Option PyFloat)))
  deriving DecidableEq

/-- Event trace of a completed sweep: for each grid cell in row-major
order a solver execution and an output-file read, then the removal of
the output file and of the log file (lines 143-151). -/
def sweepEvents (shape : List Nat) : List Event :=
  (indexProduct shape).flatMap (fun idx => [.solverRun idx, .readOutput idx])
    ++ [.removeOutput, .removeLog]

/-- Sequence a list of possibly diverging reads; `none` as soon as one
diverges. -/
def optionAll {α : Type _} : List (Option α) → Option (List α)
  | [] => some []
  | o :: l => o.bind (fun a => (optionAll l).map (fun l' => a :: l'))

/-- Resolved parameter record `__call__` returns:
`params = {**params, **gparams}` with every grid parameter collapsed
or squeezed. -/
def callParams (cfg : RADEXConfig) (vals : List (String × SpecParam))
    (rest : PyDict) (shape : List Nat) : List (String × ResolvedVal) :=
  rest.map (fun kv => (kv.1, ResolvedVal.raw kv.2))
    ++ (List.range vals.length).map
      (fun j => ((vals.getD j ("", .scalar 0)).1,
        resolveParam shape (gridFlat cfg vals shape j)))

/-- Output record `__call__` returns: per output quantity, the
per-cell field values assembled over the grid in row-major order,
squeezed.  Each cell's record is recomputed here from the solver
function; the reads being deterministic, this equals the values the
loop stored into the `np.zeros(gshape)` arrays cell by cell. -/
def callOutputs (cfg : RADEXConfig) (sf : PyDict → List String)
    (vals : List (String × SpecParam)) (rest : PyDict) (shape : List Nat) :
    List (String × (List Nat × List (Option PyFloat))) :=
  cfg.outKeys.map (fun k =>
    (k, (squeezeShape shape,
      (indexProduct shape).map (fun idx =>
        (((radexReadOutput cfg.outKeys (sf (cellDict cfg vals rest idx))).getD
          []).lookup k).join))))

/-- Embedding of `RADEX.__call__`.  The transition's rest frequency is
looked up (its absence is the `KeyError` of line 120, surfaced as
`CallErr.unknownTransition`, before any solver or file activity); the
parameter grid is built; the solver runs once per cell — `sf` maps a
cell's stripped parameter record to the solver output file it writes —
and each cell's output is read; the output and log files are removed;
the resolved parameters and outputs are returned.  The outer `none`
models a diverging output read ("calculation finished" never found in
some cell's output file). -/
def RADEXcall (cfg : RADEXConfig) (st : RADEXData) (sf : PyDict → List String)
    (transition : String) (kwargs : PyDict) :
    Option (List Event × Except CallErr CallResult) :=
  match List.lookup transition st.transitions with
  | none => some ([], .error .unknownTransition)
  | some fr =>
    (optionAll ((indexProduct (sweepShape cfg st fr kwargs)).map
        (fun idx => radexReadOutput cfg.outKeys
          (sf (cellDict cfg (sweepVals cfg st fr kwargs)
            (sweepRest cfg st fr kwargs) idx))))).map
      (fun _ => (sweepEvents (sweepShape cfg st fr kwargs),
        .ok ⟨callParams cfg (sweepVals cfg st fr kwargs)
              (sweepRest cfg st fr kwargs) (sweepShape cfg st fr kwargs),
            callOutputs cfg sf (sweepVals cfg st fr kwargs)
              (sweepRest cfg st fr kwargs) (sweepShape cfg st fr kwargs)⟩))

/-! ## Object-identity model of the in-place mutations

Python dictionaries are mutable heap objects, and `__call__` both
mutates dictionaries in place (`params.update`, `params.pop`,
`_remove_units`) and copies them (`deepcopy`, `{**a, **b}`).  To state
the frame property — the calculator's stored `default_params` and the
rest of its pre-existing state are never mutated by a call — the
dictionaries live in an explicit store indexed by allocation order,
and the dictionary operations of `__call__` are replayed against it. -/

/-- Store of allocated dictionaries; a reference is an index. -/
abbrev Store := List PyDict

/-- Dereference a dictionary reference. -/
def readRef (s : Store) (r : Nat) : PyDict := s.getD r []

/-- In-place mutation of the dictionary behind `r`. -/
def writeRef (s : Store) (r : Nat) (d : PyDict) : Store := s.set r d

/-- Allocation of a fresh dictionary object. -/
def alloc (s : Store) (d : PyDict) : Store × Nat := (s ++ [d], s.length)

/-- Store action of `_calc_radex(self, params)`: its argument is the
freshly allocated merged dictionary `{**params, **eachgparams}` built
by the caller, and `_remove_units(params)` rebinds the values of
exactly that dictionary in place. -/
def calcRadexStore (s : Store) (cell : PyDict) : Store :=
  let a := alloc s cell
  writeRef a.1 a.2 ((readRef a.1 a.2).map (fun kv => (kv.1, removeUnitsVal kv.2)))

/-- Dictionary-mutating skeleton of `__call__` against the store:
`params = deepcopy(self.default_params)` allocates a fresh copy;
`params.update(kwargs)`, the update with
`moldata`/`output`/`f_min`/`f_max` (`extras`), and the `params.pop`
calls for the grid keys mutate only that copy; each grid cell then
allocates a fresh merged dictionary (`{**params, **eachgparams}`)
that `_calc_radex` strips in place.  `defaultsRef` is the
calculator's stored `default_params` object. -/
def callStore (s : Store) (defaultsRef : Nat) (kwargs extras : PyDict)
    (gridKeys : List String) (cells : List PyDict) : Store :=
  let a := alloc s (readRef s defaultsRef)
  let s1 := writeRef a.1 a.2 (dictUpdate (readRef a.1 a.2) kwargs)
  let s2 := writeRef s1 a.2 (dictUpdate (readRef s1 a.2) extras)
  let s3 := writeRef s2 a.2 (removeKeys (readRef s2 a.2) gridKeys)
  cells.foldl (fun s cell => calcRadexStore s (dictUpdate (readRef s a.2) cell)) s3

/-! ## Lemmas: header scanning and moldata parsing -/

/-- On a stream none of whose lines matches the pattern, the
header-scanning loop is still running after any number of iterations:
at end of stream `readline` returns `""` forever, `""` does not match,
and the loop has no other exit. -/
lemma scanHeader_none (pat : String) (hempty : containsCI "" pat = false) :
    ∀ (fuel : Nat) (kwd : String) (lines : List String),
      containsCI kwd pat = false →
      (∀ l ∈ lines, containsCI l pat = false) →
      scanHeader pat fuel kwd lines = none := by
  intro fuel
  induction fuel with
  | zero => intro kwd lines _ _; rfl
  | succ n ih =>
    intro kwd lines hk hl
    rw [scanHeader, if_neg (by simp [hk])]
    cases lines with
    | nil => exact ih "" [] hempty (by intro l hl'; cases hl')
    | cons l ls =>
      exact ih l ls (hl l (by simp)) (fun x hx => hl x (by simp [hx]))

/-- A matching header line after a non-matching prefix is found, and
scanning resumes right after it. -/
lemma findSectionCI_append (pat : String) (pre : List String) (hdr : String)
    (tail : List String) (hpre : ∀ l ∈ pre, containsCI l pat = false)
    (hhdr : containsCI hdr pat = true) :
    findSectionCI pat (pre ++ hdr :: tail) = some tail := by
  induction pre with
  | nil => simp [findSectionCI, hhdr]
  | cons l ls ih =>
    have hl : containsCI l pat = false := hpre l (by simp)
    rw [List.cons_append, findSectionCI, if_neg (by simp [hl])]
    exact ih (fun x hx => hpre x (by simp [hx]))

/-- The level-line loop consumes exactly its count of lines when every
line parses, and returns their parses in file order. -/
lemma parseLevels_append (lvl rest : List String)
    (h : ∀ l ∈ lvl, (parseLevelLine l).isSome) :
    parseLevels lvl.length (lvl ++ rest) =
      some (lvl.map (fun l => (parseLevelLine l).getD default)) := by
  induction lvl with
  | nil => rfl
  | cons l ls ih =>
    obtain ⟨lv, hlv⟩ := Option.isSome_iff_exists.mp (h l (by simp))
    simp only [List.length_cons, List.cons_append, parseLevels, readlineD, hlv,
      ih (fun x hx => h x (by simp [hx])), Option.bind_eq_bind, Option.some_bind,
      List.map_cons, Option.getD_some, Option.pure_def]

/-- Positivity transfers from the decidable mantissa test to the
rational value of a parsed numeral. -/
lemma toRat_pos_of_isPos (p : PyFloat) (h : p.isPos = true) : 0 < p.toRat := by
  rcases p with ⟨neg, m, f, e⟩
  simp only [PyFloat.isPos, Bool.and_eq_true, Bool.not_eq_true', decide_eq_true_eq] at h
  obtain ⟨h1, h2⟩ := h
  subst h1
  have hm : (0 : ℚ) < m := by exact_mod_cast Nat.pos_of_ne_zero h2
  simp only [PyFloat.toRat, if_neg Bool.false_ne_true]
  positivity

/-! ## Claims C1 and C8 -/

/-- C1: the claim states that when a required section header ("energy
levels" or "radiative transitions") never occurs in the stream, the
molecular-data parsing operations terminate by raising
MalformedDataError and never scan unboundedly.  The code does the
opposite: `f.readline()` returns `""` forever at end of stream, the
header-scanning `while` loop of `_get_energy_levels` (line 171) and
`_get_transitions` (line 191) exits only on a match, and no exception
is ever raised — this theorem shows the loop is still running after
any number of iterations on every header-less stream, i.e. it loops
forever, confirming the code bug the specification itself flags
("treat end-of-stream during header search as fatal"). -/
theorem c1_header_scan_loops_forever (lines : List String)
    (h₁ : ∀ l ∈ lines, containsCI l "energy levels" = false)
    (h₂ : ∀ l ∈ lines, containsCI l "radiative transitions" = false) :
    ∀ fuel : Nat,
      scanHeader "energy levels" fuel "" lines = none ∧
      scanHeader "radiative transitions" fuel "" lines = none := by
  intro fuel
  exact ⟨scanHeader_none _ (by decide) fuel "" lines (by decide) h₁,
    scanHeader_none _ (by decide) fuel "" lines (by decide) h₂⟩

/-- Witness for C1 on a concrete truncated stream: after 1000
iterations the header scan of both sections is still running. -/
theorem c1_header_scan_loops_forever_witness :
    scanHeader "energy levels" 1000 "" ["!MOLECULE", "CO (truncated)"] = none ∧
    scanHeader "radiative transitions" 1000 "" ["!MOLECULE", "CO (truncated)"] = none :=
  c1_header_scan_loops_forever ["!MOLECULE", "CO (truncated)"]
    (by decide) (by decide) 1000

/-- C8: on a well-formed energy-level section — a non-matching prefix,
a header line containing "energy levels", a count line parsing to `n`,
a column-header line, and `n` level lines each of at least four
whitespace-separated fields with numeric fields 2 and 3 and a positive
weight — `_get_energy_levels` returns exactly `n` entries, keyed
`1..n` in file order, each entry holding field 2 as energy, field 3 as
weight and field 4 as label (the content of `parseLevelLine`), and
every parsed statistical weight is positive. -/
theorem c8_energy_levels_parse (pre : List String) (hdr countLine colHdr : String)
    (lvl rest : List String) (n : Int)
    (hpre : ∀ l ∈ pre, containsCI l "energy levels" = false)
    (hhdr : containsCI hdr "energy levels" = true)
    (hcount : pyInt? countLine = some n)
    (hlen : lvl.length = n.toNat)
    (hparse : ∀ l ∈ lvl, (parseLevelLine l).isSome)
    (hw : ∀ l ∈ lvl, ((parseLevelLine l).getD default).weight.isPos = true) :
    getEnergyLevels (pre ++ hdr :: countLine :: colHdr :: (lvl ++ rest)) =
      some (lvl.enum.map (fun p => (p.1 + 1, (parseLevelLine p.2).getD default)))
    ∧ (lvl.enum.map (fun p => (p.1 + 1, (parseLevelLine p.2).getD default))).length
        = n.toNat
    ∧ (lvl.enum.map (fun p => (p.1 + 1, (parseLevelLine p.2).getD default))).map
        Prod.fst = (List.range n.toNat).map (· + 1)
    ∧ ∀ p ∈ lvl.enum.map (fun p => (p.1 + 1, (parseLevelLine p.2).getD default)),
        0 < p.2.weight.toRat := by
  have hfind := findSectionCI_append "energy levels" pre hdr
    (countLine :: colHdr :: (lvl ++ rest)) hpre hhdr
  have hlv := parseLevels_append lvl rest hparse
  refine ⟨?_, ?_, ?_, ?_⟩
  · rw [getEnergyLevels, hfind]
    simp only [Option.bind_eq_bind, Option.some_bind, readlineD]
    rw [hcount]
    simp only [Option.some_bind, readlineD, ← hlen, hlv, Option.pure_def]
    congr 1
    rw [List.enum_eq_zip_range, List.zip_map_right, List.map_map]
    rfl
  · simp [hlen]
  · rw [List.map_map, ← hlen]
    have : lvl.enum.map (Prod.fst ∘ fun p : Nat × String =>
        (p.1 + 1, (parseLevelLine p.2).getD default)) =
        (lvl.enum.map Prod.fst).map (· + 1) := by
      rw [List.map_map]; rfl
    rw [this, List.enum_map_fst]
  · intro p hp
    obtain ⟨q, hq, rfl⟩ := List.mem_map.mp hp
    have hq2 : q.2 ∈ lvl := by
      rw [List.enum_eq_zip_range] at hq
      rcases q with ⟨a, b⟩
      exact (List.of_mem_zip hq).2
    exact toRat_pos_of_isPos _ (hw q.2 hq2)

/-- Witness for C8 on a concrete two-level section. -/
theorem c8_energy_levels_parse_witness :
    getEnergyLevels (["!MOLECULE", "CO"] ++ "!NUMBER OF ENERGY LEVELS" :: "2" ::
        "!LEVEL + ENERGIES(cm^-1) + WEIGHT + J" ::
        (["    1     0.000000000    1.0     0", "    2     3.845033413    3.0     1"]
          ++ ["!NUMBER OF RADIATIVE TRANSITIONS"])) =
      some ((["    1     0.000000000    1.0     0",
        "    2     3.845033413    3.0     1"]).enum.map
          (fun p => (p.1 + 1, (parseLevelLine p.2).getD default)))
    ∧ ((["    1     0.000000000    1.0     0",
        "    2     3.845033413    3.0     1"]).enum.map
          (fun p => (p.1 + 1, (parseLevelLine p.2).getD default))).length
        = (2 : Int).toNat
    ∧ ((["    1     0.000000000    1.0     0",
        "    2     3.845033413    3.0     1"]).enum.map
          (fun p => (p.1 + 1, (parseLevelLine p.2).getD default))).map Prod.fst
        = (List.range (2 : Int).toNat).map (· + 1)
    ∧ ∀ p ∈ (["    1     0.000000000    1.0     0",
        "    2     3.845033413    3.0     1"]).enum.map
          (fun p => (p.1 + 1, (parseLevelLine p.2).getD default)),
        0 < p.2.weight.toRat :=
  c8_energy_levels_parse ["!MOLECULE", "CO"] "!NUMBER OF ENERGY LEVELS" "2"
    "!LEVEL + ENERGIES(cm^-1) + WEIGHT + J"
    ["    1     0.000000000    1.0     0", "    2     3.845033413    3.0     1"]
    ["!NUMBER OF RADIATIVE TRANSITIONS"] 2
    (by decide) (by decide) (by decide) (by decide) (by decide) (by decide)

/-! ## Lemmas: grid shapes and index enumeration -/

/-- After removing length-1 axes, the shape `np.meshgrid` produces and
the broadcast shape of the array-valued parameters agree. -/
lemma squeeze_gridShape (ps : List SpecParam) :
    squeezeShape (gridShapeOf ps) = squeezeShape (broadcastShapeSpec ps) := by
  induction ps with
  | nil => rfl
  | cons p t ih =>
    cases p with
    | scalar x =>
      simpa [gridShapeOf, broadcastShapeSpec, squeezeShape, paramLen, isArrayParam,
        List.filter_cons] using ih
    | array xs =>
      by_cases h : xs.length = 1 <;>
        simpa [gridShapeOf, broadcastShapeSpec, squeezeShape, paramLen, isArrayParam,
          List.filter_cons, h] using ih

/-- Scalars contribute a length-1 axis, so the cell count is
unaffected by them. -/
lemma cellCount_gridShape (ps : List SpecParam) :
    cellCount (gridShapeOf ps) = cellCount (broadcastShapeSpec ps) := by
  induction ps with
  | nil => rfl
  | cons p t ih =>
    cases p with
    | scalar x =>
      simpa [gridShapeOf, broadcastShapeSpec, cellCount, paramLen, isArrayParam,
        List.filter_cons] using ih
    | array xs =>
      simp only [gridShapeOf, broadcastShapeSpec, cellCount, isArrayParam,
        List.filter_cons, List.map_cons, List.prod_cons] at ih ⊢
      simp [ih, cellCount, broadcastShapeSpec, gridShapeOf]

/-- With every parameter scalar, the meshgrid shape is all ones. -/
lemma gridShape_all_scalar (ps : List SpecParam)
    (h : ∀ p ∈ ps, isArrayParam p = false) :
    gridShapeOf ps = List.replicate ps.length 1 := by
  induction ps with
  | nil => rfl
  | cons p t ih =>
    have hp := h p (by simp)
    cases p with
    | scalar x =>
      simp [gridShapeOf, paramLen, List.replicate_succ] at ih ⊢
      exact ih (fun q hq => h q (by simp [hq]))
    | array xs => simp [isArrayParam] at hp

/-- Index tuples enumerated by `itertools.product` are exactly the
valid coordinates of the grid. -/
lemma mem_indexProduct (shape : List Nat) :
    ∀ idx, idx ∈ indexProduct shape ↔ validIdx idx shape = true := by
  induction shape with
  | nil => intro idx; cases idx <;> simp [indexProduct, validIdx]
  | cons n ns ih =>
    intro idx
    cases idx with
    | nil => simp [indexProduct, List.mem_flatMap, validIdx]
    | cons i t =>
      simp only [indexProduct, List.mem_flatMap, List.mem_map, List.mem_range,
        validIdx, Bool.and_eq_true, decide_eq_true_eq]
      constructor
      · rintro ⟨a, ha, x, hx, hax⟩
        injection hax with h1 h2
        subst h1; subst h2
        exact ⟨ha, (ih _).mp hx⟩
      · rintro ⟨hi, ht⟩
        exact ⟨i, hi, t, (ih t).mpr ht, rfl⟩

/-- Every grid coordinate is enumerated exactly once. -/
lemma nodup_indexProduct (shape : List Nat) : (indexProduct shape).Nodup := by
  induction shape with
  | nil => simp [indexProduct]
  | cons n ns ih =>
    rw [indexProduct, List.nodup_flatMap]
    refine ⟨fun i _ => ih.map (fun a b h => by injection h), ?_⟩
    refine List.Pairwise.imp ?_ (List.nodup_range n)
    intro i j hij x hx hx'
    obtain ⟨a, _, ha⟩ := List.mem_map.mp hx
    obtain ⟨b, _, hb⟩ := List.mem_map.mp hx'
    rw [← ha] at hb
    exact hij (by injection hb with h1 _; exact h1.symm)

/-! ## Claims C4 and C9 -/

/-- C4 (amended): the claim asserts the grid shape equals the
broadcast shape of the array-valued parameters, a scalar contributing
no axis and all-scalar giving the empty shape.  In the code
(`np.meshgrid(..., indexing='ij')`, line 133) every parameter of
`RADEX_PARAMS` contributes one axis in iteration order, a scalar a
length-1 axis, so the two shapes differ exactly by length-1 axes: they
have the same cell count and agree after squeezing, and with every
parameter scalar the code's grid shape is `(1, ..., 1)` — one cell —
whose squeeze (applied to outputs and parameters before returning) is
the empty, scalar shape. -/
theorem c4_grid_shape_amended (ps : List SpecParam) :
    squeezeShape (gridShapeOf ps) = squeezeShape (broadcastShapeSpec ps)
    ∧ cellCount (gridShapeOf ps) = cellCount (broadcastShapeSpec ps)
    ∧ ((∀ p ∈ ps, isArrayParam p = false) →
        gridShapeOf ps = List.replicate ps.length 1
        ∧ cellCount (gridShapeOf ps) = 1
        ∧ squeezeShape (gridShapeOf ps) = []) := by
  refine ⟨squeeze_gridShape ps, cellCount_gridShape ps, fun h => ?_⟩
  have hrep := gridShape_all_scalar ps h
  refine ⟨hrep, ?_, ?_⟩
  · simp [hrep, cellCount, List.prod_replicate]
  · rw [hrep]
    induction ps.length with
    | zero => rfl
    | succ k ihk =>
      rw [List.replicate_succ, squeezeShape, List.filter_cons]
      simp [squeezeShape]

/-- Counterexample for C4 as stated: with one scalar and one
three-element array parameter the meshgrid shape is `[1, 3]`, not the
claimed broadcast shape `[3]`; with all parameters scalar it is
`[1, 1]`, not the claimed empty shape. -/
theorem c4_grid_shape_counterexample :
    gridShapeOf [.scalar 100, .array [1000, 10000, 100000]] = [1, 3]
    ∧ broadcastShapeSpec [.scalar 100, .array [1000, 10000, 100000]] = [3]
    ∧ gridShapeOf [.scalar 100, .array [1000, 10000, 100000]]
        ≠ broadcastShapeSpec [.scalar 100, .array [1000, 10000, 100000]]
    ∧ gridShapeOf [.scalar 100, .scalar 200] = [1, 1]
    ∧ gridShapeOf [.scalar 100, .scalar 200] ≠ ([] : List Nat) := by
  refine ⟨rfl, rfl, by decide, rfl, by decide⟩

/-- Witness for C4 (amended) at a concrete all-scalar specification. -/
theorem c4_grid_shape_amended_witness :
    gridShapeOf [SpecParam.scalar 100, SpecParam.scalar 7300]
        = List.replicate ([SpecParam.scalar 100, SpecParam.scalar 7300] : List SpecParam).length 1
    ∧ cellCount (gridShapeOf [SpecParam.scalar 100, SpecParam.scalar 7300]) = 1
    ∧ squeezeShape (gridShapeOf [SpecParam.scalar 100, SpecParam.scalar 7300]) = [] :=
  (c4_grid_shape_amended [SpecParam.scalar 100, SpecParam.scalar 7300]).2.2
    (by intro p hp; fin_cases hp <;> rfl)

/-- C9: determinism and totality of the sweep.  The
grid-index-to-coordinate mapping `itertools.product(*map(range, shape))`
is fixed and total — it enumerates exactly the valid coordinates, each
exactly once — and `__call__` is a pure function of its configuration,
state, solver behaviour and arguments: two runs with identical inputs
and extensionally identical (deterministic) solvers return identical
event traces, parameter records, and output arrays, not-a-number
positions included. -/
theorem c9_sweep_deterministic :
    (∀ shape : List Nat, (indexProduct shape).Nodup
      ∧ ∀ idx, idx ∈ indexProduct shape ↔ validIdx idx shape = true)
    ∧ ∀ (cfg : RADEXConfig) (st : RADEXData) (sf₁ sf₂ : PyDict → List String)
        (t : String) (kwargs : PyDict),
        (∀ d, sf₁ d = sf₂ d) →
        RADEXcall cfg st sf₁ t kwargs = RADEXcall cfg st sf₂ t kwargs := by
  refine ⟨fun shape => ⟨nodup_indexProduct shape, mem_indexProduct shape⟩, ?_⟩
  intro cfg st sf₁ sf₂ t kwargs h
  have : sf₁ = sf₂ := funext h
  rw [this]

/-- Witness for C9 at a concrete shape and a concrete sweep. -/
theorem c9_sweep_deterministic_witness :
    (indexProduct [2, 3]).Nodup
    ∧ ([1, 2] ∈ indexProduct [2, 3] ↔ validIdx [1, 2] [2, 3] = true)
    ∧ RADEXcall ⟨[("T_kin", .scalar 100)], fun _ x => x, ["T_R"], "radex.out"⟩
        ⟨"co.dat", [("1-0", 115)]⟩ (fun _ => ["Calculation finished", "", "", ""])
        "1-0" []
      = RADEXcall ⟨[("T_kin", .scalar 100)], fun _ x => x, ["T_R"], "radex.out"⟩
        ⟨"co.dat", [("1-0", 115)]⟩ (fun _ => ["Calculation finished", "", "", ""])
        "1-0" [] :=
  ⟨(c9_sweep_deterministic.1 [2, 3]).1, (c9_sweep_deterministic.1 [2, 3]).2 [1, 2],
    c9_sweep_deterministic.2 _ _ _ _ "1-0" [] (fun _ => rfl)⟩

/-! ## Lemmas: association-list dictionaries -/

lemma lookup_append {α : Type _} (d d' : List (String × α)) (k : String) :
    List.lookup k (d ++ d') =
      (List.lookup k d).or (List.lookup k d') := by
  induction d with
  | nil => simp
  | cons kv t ih =>
    rcases kv with ⟨a, b⟩
    by_cases h : k = a
    · subst h; simp [List.lookup]
    · have hb : (k == a) = false := by simpa using h
      simp [List.lookup, hb, ih]

lemma lookup_eq_none_of_not_any {α : Type _} (d : List (String × α)) (k : String)
    (h : d.any (fun kv => kv.1 == k) = false) : List.lookup k d = none := by
  induction d with
  | nil => rfl
  | cons kv t ih =>
    rcases kv with ⟨a, b⟩
    rw [List.any_cons, Bool.or_eq_false_iff] at h
    have h1 : (k == a) = false := by
      simpa using fun he : k = a => (by simp [he] at h)
    simp [List.lookup, h1, ih h.2]

lemma lookup_map_set {α : Type _} (d : List (String × α)) (k : String) (v : α)
    (h : d.any (fun kv => kv.1 == k) = true) :
    List.lookup k (d.map (fun kv => if kv.1 == k then (k, v) else kv)) = some v := by
  induction d with
  | nil => cases h
  | cons kv t ih =>
    rcases kv with ⟨a, b⟩
    by_cases hk : a = k
    · subst hk
      rw [List.map_cons, if_pos (by simp)]
      simp [List.lookup]
    · have hb : (a == k) = false := by simpa using hk
      have hkb : (k == a) = false := by
        simpa using fun he : k = a => hk he.symm
      have ht : t.any (fun kv => kv.1 == k) = true := by
        simpa [List.any_cons, hb] using h
      rw [List.map_cons, if_neg (by simp [hb])]
      simp only [List.lookup, hkb]
      simpa using ih ht

/-- Setting a key makes it found with the new value. -/
lemma lookup_dictSet_self {α : Type _} (d : List (String × α)) (k : String) (v : α) :
    List.lookup k (dictSet d k v) = some v := by
  unfold dictSet
  by_cases h : d.any (fun kv => kv.1 == k) = true
  · rw [if_pos h]; exact lookup_map_set d k v h
  · rw [if_neg h, lookup_append,
      lookup_eq_none_of_not_any d k (Bool.not_eq_true _ ▸ h)]
    simp [List.lookup]

lemma lookup_map_set_ne {α : Type _} (d : List (String × α)) (k k' : String) (v : α)
    (hne : k ≠ k') :
    List.lookup k (d.map (fun kv => if kv.1 == k' then (k', v) else kv))
      = List.lookup k d := by
  induction d with
  | nil => rfl
  | cons kv t ih =>
    rcases kv with ⟨a, b⟩
    by_cases hk : a = k'
    · subst hk
      have h1 : (k == a) = false := by simpa using hne
      rw [List.map_cons, if_pos (by simp)]
      simp only [List.lookup, h1]
      simpa using ih
    · have hb : (a == k') = false := by simpa using hk
      rw [List.map_cons, if_neg (by simp [hb])]
      by_cases hke : k = a
      · subst hke; simp [List.lookup]
      · have h2 : (k == a) = false := by simpa using hke
        simp only [List.lookup, h2]
        simpa using ih

/-- Setting a different key leaves a lookup unchanged. -/
lemma lookup_dictSet_ne {α : Type _} (d : List (String × α)) (k k' : String) (v : α)
    (hne : k ≠ k') : List.lookup k (dictSet d k' v) = List.lookup k d := by
  unfold dictSet
  by_cases h : d.any (fun kv => kv.1 == k') = true
  · rw [if_pos h]; exact lookup_map_set_ne d k k' v hne
  · rw [if_neg h, lookup_append]
    have h1 : (k == k') = false := by simpa using hne
    simp [List.lookup, h1]

/-- A bulk update whose keys avoid `k` leaves `k`'s lookup unchanged. -/
lemma lookup_dictUpdate_not_mem {α : Type _} (kvs : List (String × α)) :
    ∀ (d : List (String × α)) (k : String), (∀ kv ∈ kvs, kv.1 ≠ k) →
      List.lookup k (dictUpdate d kvs) = List.lookup k d := by
  induction kvs with
  | nil => intro d k _; rfl
  | cons kv t ih =>
    intro d k h
    rw [dictUpdate, List.foldl_cons,
      show List.foldl (fun d kv => dictSet d kv.1 kv.2) (dictSet d kv.1 kv.2) t
        = dictUpdate (dictSet d kv.1 kv.2) t from rfl,
      ih _ k (fun x hx => h x (by simp [hx])),
      lookup_dictSet_ne _ _ _ _ (fun he => h kv (by simp) he.symm)]

lemma lookup_filter_ne {α : Type _} (d : List (String × α)) (k k' : String)
    (h : k ≠ k') :
    List.lookup k (d.filter (fun kv => kv.1 ≠ k')) = List.lookup k d := by
  induction d with
  | nil => rfl
  | cons kv t ih =>
    rcases kv with ⟨a, b⟩
    by_cases ha : a = k'
    · subst ha
      rw [List.filter_cons, if_neg (by simp)]
      have h1 : (k == a) = false := by simpa using h
      simp only [List.lookup, h1]
      simpa using ih
    · rw [List.filter_cons, if_pos (by simpa using ha)]
      by_cases hk : k = a
      · subst hk; simp [List.lookup]
      · have h1 : (k == a) = false := by simpa using hk
        simp only [List.lookup, h1]
        simpa using ih

lemma lookup_filter_self {α : Type _} (d : List (String × α)) (k : String) :
    List.lookup k (d.filter (fun kv => kv.1 ≠ k)) = none := by
  induction d with
  | nil => rfl
  | cons kv t ih =>
    rcases kv with ⟨a, b⟩
    by_cases ha : a = k
    · subst ha; rw [List.filter_cons, if_neg (by simp)]; exact ih
    · rw [List.filter_cons, if_pos (by simpa using ha)]
      have h1 : (k == a) = false := by
        simpa using fun he : k = a => ha he.symm
      simp only [List.lookup, h1]
      simpa using ih

lemma lookup_none_filter {α : Type _} (d : List (String × α))
    (p : String × α → Bool) (k : String) (h : List.lookup k d = none) :
    List.lookup k (d.filter p) = none := by
  induction d with
  | nil => rfl
  | cons kv t ih =>
    rcases kv with ⟨a, b⟩
    by_cases hk : k = a
    · subst hk; simp [List.lookup] at h
    · have h1 : (k == a) = false := by simpa using hk
      simp only [List.lookup, h1] at h
      rw [List.filter_cons]
      by_cases hp : p (a, b) = true
      · rw [if_pos hp]
        simp only [List.lookup, h1]
        exact ih h
      · rw [if_neg hp]; exact ih h

lemma lookup_removeKeys_not_mem {α : Type _} (ks : List String) :
    ∀ (d : List (String × α)) (k : String), k ∉ ks →
      List.lookup k (removeKeys d ks) = List.lookup k d := by
  induction ks with
  | nil => intro d k _; rfl
  | cons a t ih =>
    intro d k h
    rw [removeKeys, List.foldl_cons,
      show List.foldl (fun d k => d.filter (fun kv => kv.1 ≠ k))
          (d.filter (fun kv => kv.1 ≠ a)) t
        = removeKeys (d.filter (fun kv => kv.1 ≠ a)) t from rfl,
      ih _ k (fun hm => h (by simp [hm])),
      lookup_filter_ne d k a (fun he => h (by simp [he]))]

lemma lookup_removeKeys_none {α : Type _} (ks : List String) :
    ∀ (d : List (String × α)) (k : String), List.lookup k d = none →
      List.lookup k (removeKeys d ks) = none := by
  induction ks with
  | nil => intro d k h; exact h
  | cons a t ih =>
    intro d k h
    rw [removeKeys, List.foldl_cons,
      show List.foldl (fun d k => d.filter (fun kv => kv.1 ≠ k))
          (d.filter (fun kv => kv.1 ≠ a)) t
        = removeKeys (d.filter (fun kv => kv.1 ≠ a)) t from rfl]
    exact ih _ k (lookup_none_filter _ _ _ h)

/-- A popped key is gone from the remaining dictionary. -/
lemma lookup_removeKeys_mem {α : Type _} (ks : List String) :
    ∀ (d : List (String × α)) (k : String), k ∈ ks →
      List.lookup k (removeKeys d ks) = none := by
  induction ks with
  | nil => intro d k h; cases h
  | cons a t ih =>
    intro d k h
    rw [removeKeys, List.foldl_cons,
      show List.foldl (fun d k => d.filter (fun kv => kv.1 ≠ k))
          (d.filter (fun kv => kv.1 ≠ a)) t
        = removeKeys (d.filter (fun kv => kv.1 ≠ a)) t from rfl]
    rcases List.mem_cons.mp h with rfl | hm
    · exact lookup_removeKeys_none t _ k (lookup_filter_self d k)
    · exact ih _ k hm

lemma lookup_map_val {α β : Type _} (d : List (String × α)) (f : α → β)
    (k : String) :
    List.lookup k (d.map (fun kv => (kv.1, f kv.2))) = (List.lookup k d).map f := by
  induction d with
  | nil => rfl
  | cons kv t ih =>
    rcases kv with ⟨a, b⟩
    by_cases hk : k = a
    · subst hk; simp [List.lookup]
    · have h1 : (k == a) = false := by simpa using hk
      simp [List.lookup, h1, ih]

/-! ## Lemmas: the sweep loop -/

lemma optionAll_isSome {α : Type _} (l : List (Option α))
    (h : ∀ o ∈ l, o.isSome) : (optionAll l).isSome := by
  induction l with
  | nil => rfl
  | cons o t ih =>
    obtain ⟨a, ha⟩ := Option.isSome_iff_exists.mp (h o (by simp))
    obtain ⟨t', ht'⟩ := Option.isSome_iff_exists.mp
      (ih (fun x hx => h x (by simp [hx])))
    simp [optionAll, ha, ht']

/-- On a known transition with every cell's output readable, `__call__`
returns the sweep trace and the assembled result record. -/
lemma RADEXcall_eq_ok (cfg : RADEXConfig) (st : RADEXData)
    (sf : PyDict → List String) (t : String) (kwargs : PyDict) (fr : ℚ)
    (h1 : List.lookup t st.transitions = some fr)
    (h2 : ∀ idx ∈ indexProduct (sweepShape cfg st fr kwargs),
      (radexReadOutput cfg.outKeys
        (sf (cellDict cfg (sweepVals cfg st fr kwargs)
          (sweepRest cfg st fr kwargs) idx))).isSome) :
    RADEXcall cfg st sf t kwargs =
      some (sweepEvents (sweepShape cfg st fr kwargs),
        .ok ⟨callParams cfg (sweepVals cfg st fr kwargs)
              (sweepRest cfg st fr kwargs) (sweepShape cfg st fr kwargs),
            callOutputs cfg sf (sweepVals cfg st fr kwargs)
              (sweepRest cfg st fr kwargs) (sweepShape cfg st fr kwargs)⟩) := by
  have hall : ∀ o ∈ (indexProduct (sweepShape cfg st fr kwargs)).map
      (fun idx => radexReadOutput cfg.outKeys
        (sf (cellDict cfg (sweepVals cfg st fr kwargs)
          (sweepRest cfg st fr kwargs) idx))), o.isSome := by
    intro o ho
    obtain ⟨idx, hidx, rfl⟩ := List.mem_map.mp ho
    exact h2 idx hidx
  obtain ⟨v, hv⟩ := Option.isSome_iff_exists.mp (optionAll_isSome _ hall)
  simp only [RADEXcall, h1, hv, Option.map_some']

/-- Lookup of the `j`-th name in a positionally keyed record built over
`List.range`, under key distinctness. -/
lemma lookup_keyed_range {β : Type _} (names : List String) :
    ∀ (g : Nat → β) (j : Nat), names.Nodup → j < names.length →
    List.lookup (names.getD j "")
      ((List.range names.length).map (fun i => (names.getD i "", g i)))
      = some (g j) := by
  induction names with
  | nil => intro g j _ hj; cases hj
  | cons a t ih =>
    intro g j hn hj
    rw [List.length_cons, List.range_succ_eq_map, List.map_cons, List.map_map]
    cases j with
    | zero => simp [List.lookup]
    | succ j' =>
      have hj' : j' < t.length := Nat.lt_of_succ_lt_succ hj
      have hkey : (a :: t).getD (j' + 1) "" = t.getD j' "" := by
        simp [List.getD_cons_succ]
      have hmem : t.getD j' "" ∈ t := by
        rw [List.getD_eq_getElem t "" hj']
        exact List.getElem_mem hj'
      have hne : t.getD j' "" ≠ a :=
        fun he => (List.nodup_cons.mp hn).1 (he ▸ hmem)
      have hbeq : (t.getD j' "" == a) = false := by simpa using hne
      have hmap : (List.range t.length).map
          ((fun i => ((a :: t).getD i "", g i)) ∘ Nat.succ)
          = (List.range t.length).map (fun i => (t.getD i "", g (i + 1))) :=
        List.map_congr_left (fun i _ => by
          simp [List.getD_cons_succ, Nat.succ_eq_add_one])
      rw [hkey, hmap]
      simp only [List.getD_cons_zero, List.lookup, hbeq]
      exact ih (fun i => g (i + 1)) j' (List.nodup_cons.mp hn).2 hj'

/-- Lookup of a key occurring at position `i` in a record keyed by an
enumeration (starting at `n`) of distinct names. -/
lemma lookup_enumFrom_pos {β : Type _} (keys : List String) :
    ∀ (n : Nat) (f : Nat → β) (key : String) (i : Nat), keys.Nodup →
      keys[i]? = some key →
    List.lookup key ((List.enumFrom n keys).map (fun p => (p.2, f p.1)))
      = some (f (n + i)) := by
  induction keys with
  | nil => intro n f key i _ hi; cases hi
  | cons a t ih =>
    intro n f key i hn hi
    rw [List.enumFrom_cons, List.map_cons]
    cases i with
    | zero =>
      have : a = key := by simpa using hi
      subst this
      simp [List.lookup]
    | succ i' =>
      have hi' : t[i']? = some key := by simpa using hi
      have hmem : key ∈ t := by
        obtain ⟨hlt, rfl⟩ := List.getElem?_eq_some.mp hi'
        exact List.getElem_mem hlt
      have hne : key ≠ a := fun he => (List.nodup_cons.mp hn).1 (he ▸ hmem)
      have hbeq : (key == a) = false := by simpa using hne
      simp only [List.lookup, hbeq]
      rw [ih (n + 1) f key i' (List.nodup_cons.mp hn).2 hi',
        show n + 1 + i' = n + (i' + 1) from by omega]

/-- Lookup of a key occurring at position `i` in a record keyed by the
enumeration of distinct names. -/
lemma lookup_enum_pos {β : Type _} (keys : List String) (f : Nat → β)
    (key : String) (i : Nat) (hn : keys.Nodup) (hi : keys[i]? = some key) :
    List.lookup key (keys.enum.map (fun p => (p.2, f p.1))) = some (f i) := by
  have := lookup_enumFrom_pos keys 0 f key i hn hi
  simpa [List.enum] using this

/-! ## Lemmas: redundancy removal (`np.unique` / `np.squeeze`) -/

lemma dedup_all_eq {v : ℚ} :
    ∀ flat : List ℚ, flat ≠ [] → (∀ x ∈ flat, x = v) → flat.dedup = [v] := by
  intro flat
  induction flat with
  | nil => intro h; cases h rfl
  | cons x t ih =>
    intro _ hall
    have hx : x = v := hall x (by simp)
    cases t with
    | nil => simp [hx]
    | cons y u =>
      have hy : y = v := hall y (by simp)
      have hmem : x ∈ y :: u := by rw [hx, ← hy]; exact List.mem_cons_self y u
      rw [List.dedup_cons_of_mem hmem]
      exact ih (by simp) (fun z hz => hall z (by simp [hz]))

/-- When every grid cell holds the same value, the parameter collapses
to that scalar. -/
lemma resolveParam_const (shape : List Nat) (flat : List ℚ) (v : ℚ)
    (hne : flat ≠ []) (hall : ∀ x ∈ flat, x = v) :
    resolveParam shape flat = .scalar v := by
  rw [resolveParam, dedup_all_eq flat hne hall]
  rfl

/-- When two grid cells differ, the parameter stays an array, squeezed. -/
lemma resolveParam_of_two_ne (shape : List Nat) (flat : List ℚ) (x y : ℚ)
    (hx : x ∈ flat) (hy : y ∈ flat) (hxy : x ≠ y) :
    resolveParam shape flat = .arr (squeezeShape shape) flat := by
  rw [resolveParam, if_neg]
  intro h1
  obtain ⟨a, ha⟩ := List.length_eq_one.mp h1
  have hx' : x = a := by
    have := List.mem_dedup.mpr hx
    rw [ha] at this; simpa using this
  have hy' : y = a := by
    have := List.mem_dedup.mpr hy
    rw [ha] at this; simpa using this
  exact hxy (hx'.trans hy'.symm)

/-! ## Claim C7 -/

/-- C7: invoking the sweep with a transition key absent from the parsed
transitions fails immediately — the `KeyError` of
`self._transitions[transition]` on line 120, surfaced by the
specification as UnknownTransitionError — with an empty event trace: no
solver process is launched and no file I/O against the solver output
path happens before the failure. -/
theorem c7_unknown_transition_fails_first (cfg : RADEXConfig) (st : RADEXData)
    (sf : PyDict → List String) (t : String) (kwargs : PyDict)
    (h : List.lookup t st.transitions = none) :
    RADEXcall cfg st sf t kwargs = some ([], .error .unknownTransition) := by
  rw [RADEXcall, h]

/-- Witness for C7: a concrete calculator knowing only transition
"1-0", invoked with "9-8". -/
theorem c7_unknown_transition_fails_first_witness :
    RADEXcall ⟨[("T_kin", .scalar 100)], fun _ x => x, ["T_R"], "radex.out"⟩
      ⟨"co.dat", [("1-0", 115)]⟩ (fun _ => []) "9-8" [] =
      some ([], .error .unknownTransition) :=
  c7_unknown_transition_fails_first _ _ _ _ _ (by decide)

/-! ## Claim C2 -/

/-- Concrete configuration used to refute C2: one default grid
parameter, identity unit conversion, one output quantity. -/
def c2_cfg : RADEXConfig :=
  ⟨[("T_kin", .scalar 100)], fun _ x => x, ["T_R"], "radex.out"⟩

/-- Concrete calculator state used to refute C2. -/
def c2_st : RADEXData := ⟨"co.dat", [("1-0", 115)]⟩

/-- Concrete well-behaved solver used to refute C2: it always writes a
finished output file. -/
def c2_sf : PyDict → List String :=
  fun _ => ["Calculation finished", "header", "header", "1 2 3 4 5"]

/-- The sweep invoked with the override key "bogus", which is not in
the default parameter set. -/
def c2_call : Option (List Event × Except CallErr CallResult) :=
  RADEXcall c2_cfg c2_st c2_sf "1-0" [("bogus", PyVal.qty (.scalar 7))]

/-- Whether a call returned normally. -/
def isOkRun : Option (List Event × Except CallErr CallResult) → Bool
  | some (_, .ok _) => true
  | _ => false

/-- Counterexample for C2 as stated: the call with the unknown override
key "bogus" does not fail at all — no exception of any kind is raised
(`dict.update` silently inserts the key) — it returns normally and the
solver is executed. -/
theorem c2_unknown_override_counterexample :
    isOkRun c2_call = true
    ∧ c2_call.map Prod.fst = some
        [Event.solverRun [0], Event.readOutput [0],
         Event.removeOutput, Event.removeLog]
    ∧ Event.solverRun [0] ∈ [Event.solverRun [0], Event.readOutput [0],
        Event.removeOutput, Event.removeLog] := by
  refine ⟨by decide, by decide, by decide⟩

/-- Lookup after a bulk update containing the key (under distinct
update keys): the updated value wins over whatever the dictionary
held. -/
lemma lookup_dictUpdate_mem_nodup {α : Type _} (kvs : List (String × α)) :
    ∀ (d : List (String × α)) (k : String) (v : α),
      (kvs.map Prod.fst).Nodup → (k, v) ∈ kvs →
      List.lookup k (dictUpdate d kvs) = some v := by
  induction kvs with
  | nil => intro d k v _ h; cases h
  | cons kv t ih =>
    intro d k v hn hmem
    rcases kv with ⟨a, b⟩
    rw [dictUpdate, List.foldl_cons,
      show List.foldl (fun d kv => dictSet d kv.1 kv.2) (dictSet d (a, b).1 (a, b).2) t
        = dictUpdate (dictSet d a b) t from rfl]
    rcases List.mem_cons.mp hmem with heq | hmem'
    · injection heq with h1 h2
      subst h1; subst h2
      have hnk : k ∉ t.map Prod.fst := by
        simp only [List.map_cons, List.nodup_cons] at hn
        exact hn.1
      rw [lookup_dictUpdate_not_mem t _ k
        (fun kv' hkv' he => hnk (he ▸ List.mem_map_of_mem Prod.fst hkv')),
        lookup_dictSet_self]
    · refine ih _ k v ?_ hmem'
      simp only [List.map_cons, List.nodup_cons] at hn
      exact hn.2

/-- C2 (amended): an override whose key is not in the default parameter
set raises no error: the call completes normally and executes the
solver (`params.update(kwargs)` at line 124 simply inserts the key and
nothing validates override names; no InvalidParameterError exists
anywhere in the code), and the override contributes no grid axis — the
grid keeps exactly one axis per default parameter.  What happens to the
override's value splits on its name: a key that is also none of the
four record fields the call sets afterwards is carried into the
returned parameter record with its value unchanged, while an override
named `moldata`, `output`, `f_min` or `f_max` is silently overwritten
by the call's own value in the update on lines 125-130 before the
solver runs. -/
theorem c2_unknown_override_amended (cfg : RADEXConfig) (st : RADEXData)
    (sf : PyDict → List String) (t : String) (k : String) (v : PyVal) (fr : ℚ)
    (h1 : List.lookup t st.transitions = some fr)
    (h2 : ∀ idx ∈ indexProduct (sweepShape cfg st fr [(k, v)]),
      (radexReadOutput cfg.outKeys
        (sf (cellDict cfg (sweepVals cfg st fr [(k, v)])
          (sweepRest cfg st fr [(k, v)]) idx))).isSome)
    (hk : k ∉ cfg.radexParams.map Prod.fst) :
    RADEXcall cfg st sf t [(k, v)] =
      some (sweepEvents (sweepShape cfg st fr [(k, v)]),
        .ok ⟨callParams cfg (sweepVals cfg st fr [(k, v)])
              (sweepRest cfg st fr [(k, v)]) (sweepShape cfg st fr [(k, v)]),
            callOutputs cfg sf (sweepVals cfg st fr [(k, v)])
              (sweepRest cfg st fr [(k, v)]) (sweepShape cfg st fr [(k, v)])⟩)
    ∧ (sweepShape cfg st fr [(k, v)]).length = cfg.radexParams.length
    ∧ (k ∉ ["moldata", "output", "f_min", "f_max"] →
        List.lookup k (callParams cfg (sweepVals cfg st fr [(k, v)])
          (sweepRest cfg st fr [(k, v)]) (sweepShape cfg st fr [(k, v)]))
          = some (.raw v))
    ∧ List.lookup "moldata" (sweepParams cfg st fr [(k, v)])
        = some (.str st.moldata)
    ∧ List.lookup "output" (sweepParams cfg st fr [(k, v)])
        = some (.str cfg.outputPath)
    ∧ List.lookup "f_min" (sweepParams cfg st fr [(k, v)])
        = some (.qty (.scalar (fr - 1 / 1000)))
    ∧ List.lookup "f_max" (sweepParams cfg st fr [(k, v)])
        = some (.qty (.scalar (fr + 1 / 1000))) := by
  refine ⟨RADEXcall_eq_ok cfg st sf t [(k, v)] fr h1 h2,
    by simp [sweepShape, gridShapeOf, sweepVals], ?_, ?_, ?_, ?_, ?_⟩
  · intro hres
    rw [callParams, lookup_append]
    have hrest : List.lookup k (sweepRest cfg st fr [(k, v)]) = some v := by
      rw [sweepRest, lookup_removeKeys_not_mem _ _ _ hk, sweepParams,
        lookup_dictUpdate_not_mem _ _ _ (by
          intro kv hkv
          simp only [List.mem_cons, List.not_mem_nil, or_false] at hkv
          rcases hkv with rfl | rfl | rfl | rfl <;>
            exact fun he => hres (by simp [← he])),
        show dictUpdate (cfg.radexParams.map (fun kv => (kv.1, PyVal.qty kv.2)))
            [(k, v)]
          = dictSet (cfg.radexParams.map (fun kv => (kv.1, PyVal.qty kv.2))) k v
          from rfl,
        lookup_dictSet_self]
    rw [lookup_map_val, hrest]
    rfl
  all_goals
    rw [sweepParams]
    exact lookup_dictUpdate_mem_nodup _ _ _ _
      (by show (["moldata", "output", "f_min", "f_max"] : List String).Nodup
          decide)
      (by simp)

/-- Witness for C2 (amended) at the concrete refuting setup: the
"bogus" override is accepted, the solver runs, the grid keeps its one
axis and the value is carried through; a second application at the
reserved key "f_min" shows the caller's 7 being overwritten by the
call's own `f_rest - 0.001` value. -/
theorem c2_unknown_override_amended_witness :
    RADEXcall c2_cfg c2_st c2_sf "1-0" [("bogus", PyVal.qty (.scalar 7))] =
      some (sweepEvents (sweepShape c2_cfg c2_st 115 [("bogus", PyVal.qty (.scalar 7))]),
        .ok ⟨callParams c2_cfg
              (sweepVals c2_cfg c2_st 115 [("bogus", PyVal.qty (.scalar 7))])
              (sweepRest c2_cfg c2_st 115 [("bogus", PyVal.qty (.scalar 7))])
              (sweepShape c2_cfg c2_st 115 [("bogus", PyVal.qty (.scalar 7))]),
            callOutputs c2_cfg c2_sf
              (sweepVals c2_cfg c2_st 115 [("bogus", PyVal.qty (.scalar 7))])
              (sweepRest c2_cfg c2_st 115 [("bogus", PyVal.qty (.scalar 7))])
              (sweepShape c2_cfg c2_st 115 [("bogus", PyVal.qty (.scalar 7))])⟩)
    ∧ List.lookup "bogus" (callParams c2_cfg
        (sweepVals c2_cfg c2_st 115 [("bogus", PyVal.qty (.scalar 7))])
        (sweepRest c2_cfg c2_st 115 [("bogus", PyVal.qty (.scalar 7))])
        (sweepShape c2_cfg c2_st 115 [("bogus", PyVal.qty (.scalar 7))]))
        = some (.raw (PyVal.qty (.scalar 7)))
    ∧ (sweepShape c2_cfg c2_st 115 [("bogus", PyVal.qty (.scalar 7))]).length
        = c2_cfg.radexParams.length
    ∧ List.lookup "f_min"
        (sweepParams c2_cfg c2_st 115 [("f_min", PyVal.qty (.scalar 7))])
        = some (.qty (.scalar ((115 : ℚ) - 1 / 1000))) :=
  ⟨(c2_unknown_override_amended c2_cfg c2_st c2_sf "1-0" "bogus"
      (PyVal.qty (.scalar 7)) 115 (by decide) (by decide) (by decide)).1,
   (c2_unknown_override_amended c2_cfg c2_st c2_sf "1-0" "bogus"
      (PyVal.qty (.scalar 7)) 115 (by decide) (by decide) (by decide)).2.2.1
      (by decide),
   (c2_unknown_override_amended c2_cfg c2_st c2_sf "1-0" "bogus"
      (PyVal.qty (.scalar 7)) 115 (by decide) (by decide) (by decide)).2.1,
   (c2_unknown_override_amended c2_cfg c2_st c2_sf "1-0" "f_min"
      (PyVal.qty (.scalar 7)) 115 (by decide) (by decide) (by decide)).2.2.2.2.2.1⟩

/-! ## Claim C3 -/

/-- Concrete two-cell configuration used to refute C3. -/
def c3_cfg : RADEXConfig :=
  ⟨[("T_kin", .array [100, 200])], fun _ x => x, ["T_R"], "radex.out"⟩

/-- Concrete calculator state for the C3 counterexample. -/
def c3_st : RADEXData := ⟨"co.dat", [("1-0", 115)]⟩

/-- Concrete well-behaved solver for the C3 counterexample. -/
def c3_sf : PyDict → List String :=
  fun _ => ["Calculation finished", "header", "header", "1 2 3 4 5"]

/-- Whether event `a` occurs before the first occurrence of event `b`
in a trace. -/
def occursBefore (a b : Event) (tr : List Event) : Bool :=
  (tr.takeWhile (· ≠ b)).contains a

/-- Counterexample for C3 as stated: on a concrete two-cell sweep the
second cell's solver invocation begins with no removal having happened.
The full trace is run, read, run, read, and only then the two removals:
`os.remove` (lines 150-151) runs once, after the whole loop, so neither
file is removed between the first cell's read and the second cell's
run, contradicting the claimed per-cell removal ordering. -/
theorem c3_per_cell_removal_counterexample :
    (RADEXcall c3_cfg c3_st c3_sf "1-0" []).map Prod.fst = some
      [Event.solverRun [0], Event.readOutput [0],
       Event.solverRun [1], Event.readOutput [1],
       Event.removeOutput, Event.removeLog]
    ∧ occursBefore .removeOutput (.solverRun [1])
        [Event.solverRun [0], Event.readOutput [0],
         Event.solverRun [1], Event.readOutput [1],
         Event.removeOutput, Event.removeLog] = false
    ∧ occursBefore .removeLog (.solverRun [1])
        [Event.solverRun [0], Event.readOutput [0],
         Event.solverRun [1], Event.readOutput [1],
         Event.removeOutput, Event.removeLog] = false :=
  ⟨by decide, by decide, by decide⟩

/-- C3 (amended): the solver output and log files are removed exactly
once, after the entire sweep — after every cell's solver run and
output read — immediately before `__call__` returns, and never between
cells: the trace is the per-cell run/read pairs followed by the two
removals, and no removal event occurs among the per-cell events. -/
theorem c3_removal_after_sweep_amended (cfg : RADEXConfig) (st : RADEXData)
    (sf : PyDict → List String) (t : String) (kwargs : PyDict) (fr : ℚ)
    (h1 : List.lookup t st.transitions = some fr)
    (h2 : ∀ idx ∈ indexProduct (sweepShape cfg st fr kwargs),
      (radexReadOutput cfg.outKeys
        (sf (cellDict cfg (sweepVals cfg st fr kwargs)
          (sweepRest cfg st fr kwargs) idx))).isSome) :
    RADEXcall cfg st sf t kwargs =
      some (sweepEvents (sweepShape cfg st fr kwargs),
        .ok ⟨callParams cfg (sweepVals cfg st fr kwargs)
              (sweepRest cfg st fr kwargs) (sweepShape cfg st fr kwargs),
            callOutputs cfg sf (sweepVals cfg st fr kwargs)
              (sweepRest cfg st fr kwargs) (sweepShape cfg st fr kwargs)⟩)
    ∧ sweepEvents (sweepShape cfg st fr kwargs)
        = (indexProduct (sweepShape cfg st fr kwargs)).flatMap
            (fun idx => [Event.solverRun idx, Event.readOutput idx])
          ++ [Event.removeOutput, Event.removeLog]
    ∧ ∀ e ∈ (indexProduct (sweepShape cfg st fr kwargs)).flatMap
            (fun idx => [Event.solverRun idx, Event.readOutput idx]),
        e ≠ Event.removeOutput ∧ e ≠ Event.removeLog := by
  refine ⟨RADEXcall_eq_ok cfg st sf t kwargs fr h1 h2, rfl, ?_⟩
  intro e he
  obtain ⟨idx, _, hm⟩ := List.mem_flatMap.mp he
  simp only [List.mem_cons, List.not_mem_nil, or_false] at hm
  rcases hm with rfl | rfl <;> exact ⟨by simp, by simp⟩

/-- Witness for C3 (amended) at the concrete two-cell setup. -/
theorem c3_removal_after_sweep_amended_witness :
    RADEXcall c3_cfg c3_st c3_sf "1-0" [] =
      some (sweepEvents (sweepShape c3_cfg c3_st 115 []),
        .ok ⟨callParams c3_cfg (sweepVals c3_cfg c3_st 115 [])
              (sweepRest c3_cfg c3_st 115 []) (sweepShape c3_cfg c3_st 115 []),
            callOutputs c3_cfg c3_sf (sweepVals c3_cfg c3_st 115 [])
              (sweepRest c3_cfg c3_st 115 []) (sweepShape c3_cfg c3_st 115 [])⟩)
    ∧ sweepEvents (sweepShape c3_cfg c3_st 115 [])
        = (indexProduct (sweepShape c3_cfg c3_st 115 [])).flatMap
            (fun idx => [Event.solverRun idx, Event.readOutput idx])
          ++ [Event.removeOutput, Event.removeLog]
    ∧ ∀ e ∈ (indexProduct (sweepShape c3_cfg c3_st 115 [])).flatMap
            (fun idx => [Event.solverRun idx, Event.readOutput idx]),
        e ≠ Event.removeOutput ∧ e ≠ Event.removeLog :=
  c3_removal_after_sweep_amended c3_cfg c3_st c3_sf "1-0" [] 115
    (by decide) (by decide)

/-! ## Claim C5 -/

/-- Popping preserves the key sequence of the default parameter table. -/
lemma sweepVals_map_fst (cfg : RADEXConfig) (st : RADEXData) (fr : ℚ)
    (kwargs : PyDict) :
    (sweepVals cfg st fr kwargs).map Prod.fst = cfg.radexParams.map Prod.fst := by
  simp [sweepVals, List.map_map]

lemma fst_getD {α : Type _} (l : List (String × α)) (i : Nat) (d : α)
    (h : i < l.length) :
    (l.getD i ("", d)).1 = (l.map Prod.fst).getD i "" := by
  rw [List.getD_eq_getElem _ _ h, List.getD_eq_getElem _ _ (by simpa using h),
    List.getElem_map]

/-- C5: after a completed sweep, the resolved record maps each default
parameter to `resolveParam` of its full grid — the embedding of lines
153-159: if `len(np.unique(grid)) == 1` (equivalently, every grid cell
used one identical value) the parameter is reported as that single
scalar, otherwise as its array with every length-1 axis removed
(`np.squeeze`). -/
theorem c5_param_redundancy (cfg : RADEXConfig) (st : RADEXData)
    (sf : PyDict → List String) (t : String) (kwargs : PyDict) (fr : ℚ)
    (j : Nat) (key : String)
    (h1 : List.lookup t st.transitions = some fr)
    (h2 : ∀ idx ∈ indexProduct (sweepShape cfg st fr kwargs),
      (radexReadOutput cfg.outKeys
        (sf (cellDict cfg (sweepVals cfg st fr kwargs)
          (sweepRest cfg st fr kwargs) idx))).isSome)
    (hnodup : (cfg.radexParams.map Prod.fst).Nodup)
    (hj : j < cfg.radexParams.length)
    (hkey : key = ((sweepVals cfg st fr kwargs).getD j ("", .scalar 0)).1) :
    RADEXcall cfg st sf t kwargs =
      some (sweepEvents (sweepShape cfg st fr kwargs),
        .ok ⟨callParams cfg (sweepVals cfg st fr kwargs)
              (sweepRest cfg st fr kwargs) (sweepShape cfg st fr kwargs),
            callOutputs cfg sf (sweepVals cfg st fr kwargs)
              (sweepRest cfg st fr kwargs) (sweepShape cfg st fr kwargs)⟩)
    ∧ List.lookup key (callParams cfg (sweepVals cfg st fr kwargs)
        (sweepRest cfg st fr kwargs) (sweepShape cfg st fr kwargs))
        = some (resolveParam (sweepShape cfg st fr kwargs)
            (gridFlat cfg (sweepVals cfg st fr kwargs)
              (sweepShape cfg st fr kwargs) j))
    ∧ (∀ v : ℚ,
        gridFlat cfg (sweepVals cfg st fr kwargs) (sweepShape cfg st fr kwargs) j
          ≠ [] →
        (∀ x ∈ gridFlat cfg (sweepVals cfg st fr kwargs)
            (sweepShape cfg st fr kwargs) j, x = v) →
        resolveParam (sweepShape cfg st fr kwargs)
            (gridFlat cfg (sweepVals cfg st fr kwargs)
              (sweepShape cfg st fr kwargs) j)
          = ResolvedVal.scalar v)
    ∧ (∀ x y : ℚ,
        x ∈ gridFlat cfg (sweepVals cfg st fr kwargs)
            (sweepShape cfg st fr kwargs) j →
        y ∈ gridFlat cfg (sweepVals cfg st fr kwargs)
            (sweepShape cfg st fr kwargs) j →
        x ≠ y →
        resolveParam (sweepShape cfg st fr kwargs)
            (gridFlat cfg (sweepVals cfg st fr kwargs)
              (sweepShape cfg st fr kwargs) j)
          = ResolvedVal.arr (squeezeShape (sweepShape cfg st fr kwargs))
              (gridFlat cfg (sweepVals cfg st fr kwargs)
                (sweepShape cfg st fr kwargs) j)) := by
  set vals := sweepVals cfg st fr kwargs with hvals
  set shape := sweepShape cfg st fr kwargs with hshape
  have hlenv : vals.length = cfg.radexParams.length := by
    rw [hvals, sweepVals, List.length_map]
  have hjv : j < vals.length := by rw [hlenv]; exact hj
  have hnames : vals.map Prod.fst = cfg.radexParams.map Prod.fst :=
    sweepVals_map_fst cfg st fr kwargs
  have hkey' : key = (vals.map Prod.fst).getD j "" := by
    rw [hkey, fst_getD vals j (.scalar 0) hjv]
  have hmemkeys : key ∈ cfg.radexParams.map Prod.fst := by
    rw [hkey', hnames, List.getD_eq_getElem _ _ (by simpa [List.length_map] using hj)]
    exact List.getElem_mem _
  refine ⟨RADEXcall_eq_ok cfg st sf t kwargs fr h1 h2, ?_,
    fun v hne hall => resolveParam_const _ _ v hne hall,
    fun x y hx hy hxy => resolveParam_of_two_ne _ _ x y hx hy hxy⟩
  rw [callParams, lookup_append, lookup_map_val, sweepRest,
    lookup_removeKeys_mem _ _ _ hmemkeys]
  simp only [Option.map_none', Option.none_or]
  have hrecord : (List.range vals.length).map
      (fun i => ((vals.getD i ("", SpecParam.scalar 0)).1,
        resolveParam shape (gridFlat cfg vals shape i)))
      = (List.range (vals.map Prod.fst).length).map
        (fun i => ((vals.map Prod.fst).getD i "",
          resolveParam shape (gridFlat cfg vals shape i))) := by
    rw [List.length_map]
    exact List.map_congr_left (fun i hi => by
      rw [fst_getD vals i (.scalar 0) (List.mem_range.mp hi)])
  rw [hrecord, hkey']
  exact lookup_keyed_range (vals.map Prod.fst)
    (fun i => resolveParam shape (gridFlat cfg vals shape i)) j
    (hnames ▸ hnodup) (by rw [List.length_map]; exact hjv)

/-- Configuration for the C5 witness: one array parameter whose values
are all identical, one scalar parameter. -/
def c5_cfg : RADEXConfig :=
  ⟨[("T_kin", .array [100, 100]), ("n_H2", .scalar 3)],
    fun _ x => x, ["T_R"], "radex.out"⟩

/-- Calculator state for the C5 witness. -/
def c5_st : RADEXData := ⟨"co.dat", [("1-0", 115)]⟩

/-- Well-behaved solver for the C5 witness. -/
def c5_sf : PyDict → List String :=
  fun _ => ["Calculation finished", "header", "header", "1 2 3 4 5"]

/-- Witness for C5: the parameter "T_kin", swept over the identical
values 100 and 100, collapses to the scalar 100 in the resolved
record. -/
theorem c5_param_redundancy_witness :
    List.lookup "T_kin" (callParams c5_cfg (sweepVals c5_cfg c5_st 115 [])
        (sweepRest c5_cfg c5_st 115 []) (sweepShape c5_cfg c5_st 115 []))
      = some (resolveParam (sweepShape c5_cfg c5_st 115 [])
          (gridFlat c5_cfg (sweepVals c5_cfg c5_st 115 [])
            (sweepShape c5_cfg c5_st 115 []) 0))
    ∧ resolveParam (sweepShape c5_cfg c5_st 115 [])
        (gridFlat c5_cfg (sweepVals c5_cfg c5_st 115 [])
          (sweepShape c5_cfg c5_st 115 []) 0)
      = ResolvedVal.scalar 100 :=
  ⟨(c5_param_redundancy c5_cfg c5_st c5_sf "1-0" [] 115 0 "T_kin"
      (by decide) (by decide) (by decide) (by decide) (by decide)).2.1,
    (c5_param_redundancy c5_cfg c5_st c5_sf "1-0" [] 115 0 "T_kin"
      (by decide) (by decide) (by decide) (by decide) (by decide)).2.2.1 100
      (by decide) (by decide)⟩

/-! ## Claim C6 -/

/-- Lookup in a record keyed by a distinct name list itself. -/
lemma lookup_map_self {β : Type _} (keys : List String) (f : String → β)
    (key : String) (hn : keys.Nodup) (hk : key ∈ keys) :
    List.lookup key (keys.map (fun k => (k, f k))) = some (f key) := by
  induction keys with
  | nil => cases hk
  | cons a t ih =>
    rcases List.mem_cons.mp hk with rfl | hmem
    · simp [List.lookup]
    · have hne : key ≠ a := fun he => (List.nodup_cons.mp hn).1 (he ▸ hmem)
      have hbeq : (key == a) = false := by simpa using hne
      simp only [List.map_cons, List.lookup, hbeq]
      exact ih (List.nodup_cons.mp hn).2 hmem

/-- The enumeration covers the whole grid. -/
lemma length_indexProduct (shape : List Nat) :
    (indexProduct shape).length = cellCount shape := by
  induction shape with
  | nil => rfl
  | cons n ns ih =>
    rw [indexProduct, List.length_flatMap]
    have hconst : List.map (List.length ∘ fun i => List.map (fun t => i :: t)
        (indexProduct ns)) (List.range n)
        = List.replicate n (cellCount ns) := by
      refine List.eq_replicate_iff.mpr ⟨by simp, ?_⟩
      intro x hx
      obtain ⟨iidx, _, rfl⟩ := List.mem_map.mp hx
      simp [Function.comp, ih]
    rw [hconst, List.sum_replicate, smul_eq_mul]
    rfl

/-- C6: a cell whose output line holds a field that fails numeric
conversion yields not-a-number (`none`) for that quantity at that
coordinate, and the sweep continues: the call still returns normally,
every configured output quantity's array covers the complete grid (one
entry per cell, `cellCount shape` in all), and each entry is exactly
`float(elems[i+3])` of that cell's line — `none` precisely at the
coordinates whose field fails conversion, parsed values elsewhere. -/
theorem c6_failed_field_is_nan (cfg : RADEXConfig) (st : RADEXData)
    (sf : PyDict → List String) (t : String) (kwargs : PyDict) (fr : ℚ)
    (i : Nat) (key : String)
    (h1 : List.lookup t st.transitions = some fr)
    (h2 : ∀ idx ∈ indexProduct (sweepShape cfg st fr kwargs),
      (radexReadOutput cfg.outKeys
        (sf (cellDict cfg (sweepVals cfg st fr kwargs)
          (sweepRest cfg st fr kwargs) idx))).isSome)
    (hnodup : cfg.outKeys.Nodup)
    (hkey : cfg.outKeys[i]? = some key) :
    RADEXcall cfg st sf t kwargs =
      some (sweepEvents (sweepShape cfg st fr kwargs),
        .ok ⟨callParams cfg (sweepVals cfg st fr kwargs)
              (sweepRest cfg st fr kwargs) (sweepShape cfg st fr kwargs),
            callOutputs cfg sf (sweepVals cfg st fr kwargs)
              (sweepRest cfg st fr kwargs) (sweepShape cfg st fr kwargs)⟩)
    ∧ List.lookup key (callOutputs cfg sf (sweepVals cfg st fr kwargs)
        (sweepRest cfg st fr kwargs) (sweepShape cfg st fr kwargs))
        = some (squeezeShape (sweepShape cfg st fr kwargs),
            (indexProduct (sweepShape cfg st fr kwargs)).map (fun idx =>
              pyFloat? ((splitPy (((findSectionCI "calculation finished"
                  (sf (cellDict cfg (sweepVals cfg st fr kwargs)
                    (sweepRest cfg st fr kwargs) idx))).getD []).getD 2
                  "")).getD (i + 3) "")))
    ∧ ((indexProduct (sweepShape cfg st fr kwargs)).map (fun idx =>
          pyFloat? ((splitPy (((findSectionCI "calculation finished"
              (sf (cellDict cfg (sweepVals cfg st fr kwargs)
                (sweepRest cfg st fr kwargs) idx))).getD []).getD 2
              "")).getD (i + 3) ""))).length
        = cellCount (sweepShape cfg st fr kwargs)
    ∧ ∀ k' ∈ cfg.outKeys, ∃ arr,
        List.lookup k' (callOutputs cfg sf (sweepVals cfg st fr kwargs)
          (sweepRest cfg st fr kwargs) (sweepShape cfg st fr kwargs)) = some arr
        ∧ arr.2.length = cellCount (sweepShape cfg st fr kwargs) := by
  set vals := sweepVals cfg st fr kwargs with hvals
  set rest := sweepRest cfg st fr kwargs with hrest
  set shape := sweepShape cfg st fr kwargs with hshape
  have hmem : key ∈ cfg.outKeys := by
    obtain ⟨hlt, rfl⟩ := List.getElem?_eq_some.mp hkey
    exact List.getElem_mem hlt
  have hcell : ∀ idx ∈ indexProduct shape,
      (((radexReadOutput cfg.outKeys
          (sf (cellDict cfg vals rest idx))).getD []).lookup key).join
        = pyFloat? ((splitPy (((findSectionCI "calculation finished"
            (sf (cellDict cfg vals rest idx))).getD []).getD 2
            "")).getD (i + 3) "") := by
    intro idx hidx
    have hs := h2 idx hidx
    rw [radexReadOutput, Option.isSome_map'] at hs
    obtain ⟨rest', hrest'⟩ := Option.isSome_iff_exists.mp hs
    rw [radexReadOutput, hrest', Option.map_some', Option.getD_some, radexRecordOf,
      lookup_enum_pos cfg.outKeys
        (fun n => pyFloat? ((splitPy (rest'.getD 2 "")).getD (n + 3) ""))
        key i hnodup hkey]
    simp
  refine ⟨RADEXcall_eq_ok cfg st sf t kwargs fr h1 h2, ?_, ?_, ?_⟩
  · rw [callOutputs, lookup_map_self cfg.outKeys _ key hnodup hmem]
    exact congrArg some (congrArg _ (List.map_congr_left hcell))
  · rw [List.length_map, length_indexProduct]
  · intro k' hk'
    refine ⟨(squeezeShape shape,
      (indexProduct shape).map (fun idx =>
        (((radexReadOutput cfg.outKeys
          (sf (cellDict cfg vals rest idx))).getD []).lookup k').join)), ?_, ?_⟩
    · rw [callOutputs]
      exact lookup_map_self cfg.outKeys _ k' hnodup hk'
    · simp [length_indexProduct]

/-- Configuration for the C6 witness: two output quantities. -/
def c6_cfg : RADEXConfig :=
  ⟨[("T_kin", .scalar 100)], fun _ x => x, ["T_R", "tau"], "radex.out"⟩

/-- Calculator state for the C6 witness. -/
def c6_st : RADEXData := ⟨"co.dat", [("1-0", 115)]⟩

/-- Solver for the C6 witness whose result line's field for "tau"
(`elems[4]`, Fortran overflow stars) fails numeric conversion. -/
def c6_sf : PyDict → List String :=
  fun _ => ["Calculation finished", "header", "header", "a b c 4.5 ***"]

/-- Witness for C6: the "tau" array of the one-cell sweep is exactly
`[none]` — not-a-number at the failed coordinate — while the call
completed normally. -/
theorem c6_failed_field_is_nan_witness :
    List.lookup "tau" (callOutputs c6_cfg c6_sf (sweepVals c6_cfg c6_st 115 [])
        (sweepRest c6_cfg c6_st 115 []) (sweepShape c6_cfg c6_st 115 []))
      = some (squeezeShape (sweepShape c6_cfg c6_st 115 []),
          (indexProduct (sweepShape c6_cfg c6_st 115 [])).map (fun idx =>
            pyFloat? ((splitPy (((findSectionCI "calculation finished"
                (c6_sf (cellDict c6_cfg (sweepVals c6_cfg c6_st 115 [])
                  (sweepRest c6_cfg c6_st 115 []) idx))).getD []).getD 2
                "")).getD (1 + 3) "")))
    ∧ (indexProduct (sweepShape c6_cfg c6_st 115 [])).map (fun idx =>
          pyFloat? ((splitPy (((findSectionCI "calculation finished"
              (c6_sf (cellDict c6_cfg (sweepVals c6_cfg c6_st 115 [])
                (sweepRest c6_cfg c6_st 115 []) idx))).getD []).getD 2
              "")).getD (1 + 3) "")) = [none] :=
  ⟨(c6_failed_field_is_nan c6_cfg c6_st c6_sf "1-0" [] 115 1 "tau"
      (by decide) (by decide) (by decide) (by decide)).2.1,
   by decide⟩

/-! ## Claim C10 -/

lemma readRef_append (s : Store) (d : PyDict) (r : Nat) (hr : r < s.length) :
    readRef (s ++ [d]) r = readRef s r := by
  rw [readRef, readRef, List.getD_eq_getElem?_getD, List.getD_eq_getElem?_getD,
    List.getElem?_append_left hr]

lemma readRef_set_ne (s : Store) (r' : Nat) (d : PyDict) (r : Nat)
    (hne : r ≠ r') :
    readRef (writeRef s r' d) r = readRef s r := by
  rw [readRef, writeRef, readRef, List.getD_eq_getElem?_getD,
    List.getD_eq_getElem?_getD, List.getElem?_set_ne (fun h => hne h.symm)]

/-- `_calc_radex` only allocates a fresh merged dictionary and mutates
that allocation: every pre-existing object is untouched. -/
lemma calcRadexStore_frame (s : Store) (cell : PyDict) :
    s.length ≤ (calcRadexStore s cell).length ∧
    ∀ r < s.length, readRef (calcRadexStore s cell) r = readRef s r := by
  constructor
  · simp [calcRadexStore, writeRef, alloc, List.length_set]
  · intro r hr
    show readRef (writeRef (s ++ [cell]) s.length _) r = readRef s r
    rw [readRef_set_ne _ _ _ r (Nat.ne_of_lt hr), readRef_append s cell r hr]

lemma foldl_calc_frame (cells : List PyDict) (pRef : Nat) :
    ∀ (s0 s : Store), s0.length ≤ s.length →
      (∀ r < s0.length, readRef s r = readRef s0 r) →
      s0.length ≤ (cells.foldl (fun s cell =>
        calcRadexStore s (dictUpdate (readRef s pRef) cell)) s).length ∧
      ∀ r < s0.length, readRef (cells.foldl (fun s cell =>
        calcRadexStore s (dictUpdate (readRef s pRef) cell)) s) r
        = readRef s0 r := by
  induction cells with
  | nil => exact fun s0 s h1 h2 => ⟨h1, h2⟩
  | cons c t ih =>
    intro s0 s h1 h2
    rw [List.foldl_cons]
    refine ih s0 _ (le_trans h1 (calcRadexStore_frame s _).1) ?_
    intro r hr
    rw [(calcRadexStore_frame s _).2 r (lt_of_lt_of_le hr h1), h2 r hr]

/-- C10: a call never mutates the calculator's pre-existing state.
`params = deepcopy(self.default_params)` allocates a fresh dictionary;
`params.update(...)` and `params.pop(...)` mutate only that copy; each
cell's `{**params, **eachgparams}` is a fresh dictionary and the
in-place unit stripping of `_remove_units` rebinds values only there.
Hence every object allocated before the call — in particular the
stored `default_params` and the parsed molecular data — reads back
unchanged afterwards. -/
theorem c10_call_leaves_calculator_unchanged (s : Store) (defaultsRef : Nat)
    (kwargs extras : PyDict) (gridKeys : List String) (cells : List PyDict)
    (r : Nat) (hr : r < s.length) :
    readRef (callStore s defaultsRef kwargs extras gridKeys cells) r
      = readRef s r := by
  simp only [callStore, alloc]
  refine (foldl_calc_frame cells s.length s _ ?_ ?_).2 r hr
  · simp [writeRef, List.length_set]
  · intro r' hr'
    rw [readRef_set_ne _ _ _ r' (Nat.ne_of_lt hr'),
      readRef_set_ne _ _ _ r' (Nat.ne_of_lt hr'),
      readRef_set_ne _ _ _ r' (Nat.ne_of_lt hr'),
      readRef_append s _ r' hr']

/-- Witness for C10 at a concrete store: the stored `default_params`
object (reference 0) is unchanged by a call that overrides, pops and
strips units. -/
theorem c10_call_leaves_calculator_unchanged_witness :
    readRef (callStore [[("T_kin", PyVal.qty (.scalar 100))]] 0
        [("T_kin", PyVal.qty (.scalar 200))] [("f_min", PyVal.qty (.scalar 114))]
        ["T_kin"] [[("T_kin", PyVal.qty (.scalar 200))]]) 0
      = readRef [[("T_kin", PyVal.qty (.scalar 100))]] 0 :=
  c10_call_leaves_calculator_unchanged [[("T_kin", PyVal.qty (.scalar 100))]] 0
    [("T_kin", PyVal.qty (.scalar 200))] [("f_min", PyVal.qty (.scalar 114))]
    ["T_kin"] [[("T_kin", PyVal.qty (.scalar 200))]] 0 (by decide)

end Wradex
